import Mathlib

/-!
Verification of the ClickHouse query / result-materialization pipeline of
the `local-mcp` repository (package `tools`).

Strings are modelled as `List Char`; Go's machine integers as `Nat`/`Int`
(no overflow is exercised by the pipeline); `float64` JSON numbers as `ℚ`
with explicit truncation toward zero; fallible operations return `Except`.
Each definition is a direct translation of the Go function of the same
name; Go standard-library helpers (`strings.TrimSpace`, `strings.ToUpper`,
`strings.HasPrefix`, `strings.Contains`, `strings.Join`, `strings.Repeat`)
are modelled by the `go...` helpers below (the case mapping is the ASCII
fragment of Go's Unicode mapping, which is the fragment relevant to the
SQL keywords involved).
-/

/-- Models `unicode.IsSpace` (used by `strings.TrimSpace`): the Unicode
White_Space code points. -/
def goIsSpace (c : Char) : Bool :=
  c.toNat = 9 ∨ c.toNat = 10 ∨ c.toNat = 11 ∨ c.toNat = 12 ∨ c.toNat = 13 ∨
  c.toNat = 32 ∨ c.toNat = 133 ∨ c.toNat = 160 ∨ c.toNat = 5760 ∨
  (8192 ≤ c.toNat ∧ c.toNat ≤ 8202) ∨ c.toNat = 8232 ∨ c.toNat = 8233 ∨
  c.toNat = 8239 ∨ c.toNat = 8287 ∨ c.toNat = 12288

/-- Models `unicode.ToUpper` on the ASCII range (the identity elsewhere),
as applied character-wise by `strings.ToUpper`. -/
def goToUpperChar (c : Char) : Char :=
  if 97 ≤ c.toNat ∧ c.toNat ≤ 122 then Char.ofNat (c.toNat - 32) else c

/-- Models `strings.ToUpper`. -/
def goToUpper (s : List Char) : List Char :=
  s.map goToUpperChar

/-- Models `strings.TrimSpace` (trim leading and trailing white space). -/
def goTrimSpace (s : List Char) : List Char :=
  ((s.dropWhile goIsSpace).reverse.dropWhile goIsSpace).reverse

/-- Models `strings.HasPrefix s pre`. -/
def goStartsWith (s pre : List Char) : Bool :=
  pre.isPrefixOf s

/-- Models `strings.Contains s sub` (substring occurrence test). -/
def goContains : List Char → List Char → Bool
  | [], sub => sub.isEmpty
  | c :: t, sub => sub.isPrefixOf (c :: t) || goContains t sub

/-- Models `strings.Join xs " | "` (also used for the header). -/
def joinBar (xs : List (List Char)) : List Char :=
  List.intercalate (" | ").toList xs

/-- Translation of `isQuerySafe` (tools/clickhouse.go): uppercase, trim,
and test for one of the three read-only prefixes. -/
def isQuerySafe (query : List Char) : Bool :=
  let trimmedQuery := goTrimSpace (goToUpper query)
  goStartsWith trimmedQuery ("SELECT").toList ||
  goStartsWith trimmedQuery ("SHOW").toList ||
  goStartsWith trimmedQuery ("DESCRIBE").toList

/-- A dynamically typed argument value (`interface\x7b\x7d` holding a JSON
scalar), as received by the tool handlers. `Option GoValue` models an
argument that may be absent. -/
inductive GoValue where
  | vnum (q : ℚ)
  | vstr (s : List Char)
  | vbool (b : Bool)
  | vnull
deriving DecidableEq

/-- Go's `int(l)` conversion on a `float64`: truncation toward zero
(the out-of-`int64`-range case, implementation-defined in Go, is not
modelled). -/
def goTruncToInt (q : ℚ) : Int :=
  if q < 0 then ⌈q⌉ else ⌊q⌋

/-- `defaultCHLimit` (tools/clickhouse.go). -/
def defaultCHLimit : Int := 100

/-- `maxCHLimit` (tools/clickhouse.go). -/
def maxCHLimit : Int := 1000

/-- Translation of `parseClickHouseLimit` (tools/clickhouse.go): the
`limitArg.(float64)` type assertion succeeds exactly on `vnum`. -/
def parseClickHouseLimit (limitArg : Option GoValue) : Int :=
  match limitArg with
  | some (GoValue.vnum l) =>
    let limit := goTruncToInt l
    let limit := if limit < 1 then 1 else limit
    let limit := if limit > maxCHLimit then maxCHLimit else limit
    limit
  | _ => defaultCHLimit

/-- The row-limit clause appended by `executeQuery`:
`fmt.Sprintf(" LIMIT %d", limit)` (the part after the original query). -/
def limitClause (limit : Int) : List Char :=
  (" LIMIT ").toList ++ (toString limit).toList

/-- The condition of `executeQuery`'s rewrite step: the trimmed-uppercased
query starts with SELECT and the uppercased query does not contain the
substring LIMIT. -/
def wantsLimitClause (query : List Char) : Bool :=
  goStartsWith (goTrimSpace (goToUpper query)) ("SELECT").toList &&
  !goContains (goToUpper query) ("LIMIT").toList

/-- The query-rewriting step of `executeQuery` (tools/clickhouse.go):
append a LIMIT clause to SELECT queries that do not contain one. -/
def rewriteQuery (query : List Char) (limit : Int) : List Char :=
  if wantsLimitClause query then
    query ++ limitClause limit
  else
    query

/-- A column descriptor as reported by the driver cursor:
`col.Name()` and `col.DatabaseTypeName()`. -/
structure GoColumnType where
  name : List Char
  dbTypeName : List Char
deriving DecidableEq

/-- Models a `time.Time` value (wall-clock fields only, which is all the
materializer's `Format` layout reads). -/
structure GoTime where
  year : Nat
  month : Nat
  day : Nat
  hour : Nat
  minute : Nat
  second : Nat
deriving DecidableEq

/-- A wire value delivered by the driver for one cell of one row; `null`
is a null cell of a `Nullable(...)` column. -/
inductive WireValue where
  | u8 (n : Nat)
  | u16 (n : Nat)
  | u32 (n : Nat)
  | u64 (n : Nat)
  | i8 (n : Int)
  | i16 (n : Int)
  | i32 (n : Int)
  | i64 (n : Int)
  | f32 (x : ℚ)
  | f64 (x : ℚ)
  | str (s : List Char)
  | time (t : GoTime)
  | null
deriving DecidableEq

/-- A non-nil typed pointer together with its pointee, as stored in the
`values` slice (`new(uint8)`, `new(string)`, ...). -/
inductive GoVal where
  | pU8 (n : Nat)
  | pU16 (n : Nat)
  | pU32 (n : Nat)
  | pU64 (n : Nat)
  | pI8 (n : Int)
  | pI16 (n : Int)
  | pI32 (n : Int)
  | pI64 (n : Int)
  | pF32 (x : ℚ)
  | pF64 (x : ℚ)
  | pStr (s : List Char)
  | pTime (t : GoTime)
deriving DecidableEq

/-- An entry of the `values` slice: a Go interface value, either nil or a
typed pointer. -/
abbrev GoIface : Type := Option GoVal

/-- The switch body of `createValueSlice` (tools/clickhouse.go): the
freshly allocated zero-valued decode target for one column, selected by
the column's reported type tag; unrecognized tags get a string target. -/
def createValueTarget (colType : GoColumnType) : GoIface :=
    if colType.dbTypeName = ("UInt8").toList then some (GoVal.pU8 0)
    else if colType.dbTypeName = ("UInt16").toList then some (GoVal.pU16 0)
    else if colType.dbTypeName = ("UInt32").toList then some (GoVal.pU32 0)
    else if colType.dbTypeName = ("UInt64").toList then some (GoVal.pU64 0)
    else if colType.dbTypeName = ("Int8").toList then some (GoVal.pI8 0)
    else if colType.dbTypeName = ("Int16").toList then some (GoVal.pI16 0)
    else if colType.dbTypeName = ("Int32").toList then some (GoVal.pI32 0)
    else if colType.dbTypeName = ("Int64").toList then some (GoVal.pI64 0)
    else if colType.dbTypeName = ("Float32").toList then some (GoVal.pF32 0)
    else if colType.dbTypeName = ("Float64").toList then some (GoVal.pF64 0)
    else if colType.dbTypeName = ("String").toList ∨
            colType.dbTypeName = ("FixedString").toList then
      some (GoVal.pStr [])
    else if colType.dbTypeName = ("Date").toList ∨
            colType.dbTypeName = ("DateTime").toList ∨
            colType.dbTypeName = ("DateTime64").toList then
      some (GoVal.pTime ⟨1, 1, 1, 0, 0, 0⟩)
    else
      some (GoVal.pStr [])

/-- Translation of `createValueSlice` (tools/clickhouse.go): one decode
target per column. -/
def createValueSlice (columnTypes : List GoColumnType) : List GoIface :=
  columnTypes.map createValueTarget

/-- Models the driver's `rows.Scan` contract for a single destination:
writing a wire value through a typed pointer succeeds exactly when the
types agree; a null cell is rejected for every one of the materializer's
destinations (none is a pointer-to-pointer), and a nil destination is
rejected outright. -/
def scanCell (dest : GoIface) (w : WireValue) : Except (List Char) GoVal :=
  match dest with
  | none => Except.error ("destination pointer is nil").toList
  | some d =>
    match d, w with
    | GoVal.pU8 _, WireValue.u8 n => Except.ok (GoVal.pU8 n)
    | GoVal.pU16 _, WireValue.u16 n => Except.ok (GoVal.pU16 n)
    | GoVal.pU32 _, WireValue.u32 n => Except.ok (GoVal.pU32 n)
    | GoVal.pU64 _, WireValue.u64 n => Except.ok (GoVal.pU64 n)
    | GoVal.pI8 _, WireValue.i8 n => Except.ok (GoVal.pI8 n)
    | GoVal.pI16 _, WireValue.i16 n => Except.ok (GoVal.pI16 n)
    | GoVal.pI32 _, WireValue.i32 n => Except.ok (GoVal.pI32 n)
    | GoVal.pI64 _, WireValue.i64 n => Except.ok (GoVal.pI64 n)
    | GoVal.pF32 _, WireValue.f32 x => Except.ok (GoVal.pF32 x)
    | GoVal.pF64 _, WireValue.f64 x => Except.ok (GoVal.pF64 x)
    | GoVal.pStr _, WireValue.str s => Except.ok (GoVal.pStr s)
    | GoVal.pTime _, WireValue.time t => Except.ok (GoVal.pTime t)
    | _, WireValue.null =>
      Except.error ("converting NULL to destination type is unsupported").toList
    | _, _ => Except.error ("scan destination type mismatch").toList

/-- Models `rows.Scan(values...)` over the whole row: a column-count
mismatch or any per-cell failure aborts the scan; on success the slice
entries keep their (non-nil) pointers, now holding the scanned values. -/
def scanRow (dests : List GoIface) (row : List WireValue) :
    Except (List Char) (List GoIface) :=
  match dests, row with
  | [], [] => Except.ok []
  | [], _ :: _ => Except.error ("scan column count mismatch").toList
  | _ :: _, [] => Except.error ("scan column count mismatch").toList
  | d :: ds, w :: ws =>
    match scanCell d w with
    | Except.error e => Except.error e
    | Except.ok v =>
      match scanRow ds ws with
      | Except.error e => Except.error e
      | Except.ok rest => Except.ok (some v :: rest)

/-- Zero-pad a decimal rendering to two digits (`time.Format` fields). -/
def pad2 (n : Nat) : List Char :=
  if n < 10 then ('0') :: (Nat.repr n).toList else (Nat.repr n).toList

/-- Zero-pad a decimal rendering to four digits (the year field). -/
def pad4 (n : Nat) : List Char :=
  if n < 10 then ("000").toList ++ (Nat.repr n).toList
  else if n < 100 then ("00").toList ++ (Nat.repr n).toList
  else if n < 1000 then ('0') :: (Nat.repr n).toList
  else (Nat.repr n).toList

/-- Models `v.Format("2006-01-02 15:04:05")` on a `time.Time`. -/
def goTimeFormat (t : GoTime) : List Char :=
  pad4 t.year ++ ('-') :: pad2 t.month ++ ('-') :: pad2 t.day ++
  (' ') :: pad2 t.hour ++ (':') :: pad2 t.minute ++ (':') :: pad2 t.second

/-- Models `fmt.Sprintf("%g", x)` on the embedding's rational stand-in for
a floating-point pointee. The real `%g` verb prints the shortest decimal
string that round-trips through the IEEE-754 float; that behaviour is not
expressible over `ℚ`, so this placeholder renders the rational directly
and no theorem below relies on its output. -/
def goFormatG (x : ℚ) : List Char :=
  (toString x).toList

/-- The switch body of `convertValuesToStrings` (tools/clickhouse.go): a
nil interface entry becomes the literal `NULL`; a typed pointer is
formatted by its pointee's type (`%d` for integers, `%g` for floats, the
string itself, the fixed date-time layout). -/
def convertValue (val : GoIface) : List Char :=
    match val with
    | none => ("NULL").toList
    | some (GoVal.pU8 n) => (Nat.repr n).toList
    | some (GoVal.pU16 n) => (Nat.repr n).toList
    | some (GoVal.pU32 n) => (Nat.repr n).toList
    | some (GoVal.pU64 n) => (Nat.repr n).toList
    | some (GoVal.pI8 n) => (toString n).toList
    | some (GoVal.pI16 n) => (toString n).toList
    | some (GoVal.pI32 n) => (toString n).toList
    | some (GoVal.pI64 n) => (toString n).toList
    | some (GoVal.pF32 x) => goFormatG x
    | some (GoVal.pF64 x) => goFormatG x
    | some (GoVal.pStr s) => s
    | some (GoVal.pTime t) => goTimeFormat t

/-- Translation of `convertValuesToStrings` (tools/clickhouse.go): one
rendered field per values-slice entry. -/
def convertValuesToStrings (values : List GoIface) : List (List Char) :=
  values.map convertValue

/-- A driver cursor (`driver.Rows`): its column descriptors, the rows it
will deliver, and an optional deferred iteration error that `rows.Err()`
reports once the row sequence has been exhausted. -/
structure Rows where
  columnTypes : List GoColumnType
  data : List (List WireValue)
  iterErr : Option (List Char)

/-- The row loop of `formatQueryResults`: starting from `rowCount`,
consume rows while `rows.Next()` succeeds, breaking once the count
reaches `limit`; each surviving row is scanned into a fresh value slice
and rendered as one delimiter-joined data line. Returns the data lines,
the final row count, and whether the cursor was exhausted (so that the
deferred error applies). -/
def emitRows (cols : List GoColumnType) :
    List (List WireValue) → Nat → Int →
    Except (List Char) (List (List Char) × Nat × Bool)
  | [], rowCount, _ => Except.ok ([], rowCount, true)
  | row :: rest, rowCount, limit =>
    if (rowCount : Int) ≥ limit then Except.ok ([], rowCount, false)
    else
      match scanRow (createValueSlice cols) row with
      | Except.error e => Except.error (("failed to scan row: ").toList ++ e)
      | Except.ok scanned =>
        match emitRows cols rest (rowCount + 1) limit with
        | Except.error e => Except.error e
        | Except.ok (lines, finalCount, exhausted) =>
          Except.ok (joinBar (convertValuesToStrings scanned) :: lines,
            finalCount, exhausted)

/-- The trailing summary written by `formatQueryResults` after the loop. -/
def resultSummary (rowCount : Nat) (limit : Int) : List Char :=
  if rowCount = 0 then ("No rows returned.\n").toList
  else
    ("\nTotal rows: ").toList ++ (Nat.repr rowCount).toList ++
    (if (rowCount : Int) ≥ limit then
      (" (limited to ").toList ++ (toString limit).toList ++ (")").toList
    else []) ++ ("\n").toList

/-- Translation of `formatQueryResults` (tools/clickhouse.go): header,
separator rule sized to the header, at most `limit` data lines, then the
deferred-error check and the summary. -/
def formatQueryResults (rows : Rows) (limit : Int) :
    Except (List Char) (List Char) :=
  let columnNames := rows.columnTypes.map (·.name)
  let header := joinBar columnNames
  do
    let (lines, rowCount, exhausted) ← emitRows rows.columnTypes rows.data 0 limit
    match (if exhausted then rows.iterErr else none) with
    | some e => Except.error (("error iterating rows: ").toList ++ e)
    | none =>
      Except.ok
        (("Query Results:\n\n").toList ++
         header ++ ("\n").toList ++
         List.replicate header.length ('-') ++ ("\n").toList ++
         (lines.map fun line => line ++ ("\n").toList).flatten ++
         resultSummary rowCount limit)

/-- `ClickHouseConfig` (tools/clickhouse.go). -/
structure ClickHouseConfig where
  host : List Char
  port : Int
  database : List Char
  username : List Char
  password : List Char
  secure : Bool

/-- `mcp.CallToolResult` as the handlers build it: the `IsError` flag
(a nullable boolean) and the text contents. -/
structure CallToolResult where
  isError : Option Bool
  content : List (List Char)

/-- `errorResult` (tools/util.go). -/
def errorResult (message : List Char) : CallToolResult :=
  { isError := some true, content := [message] }

/-- `successResult` (tools/util.go). -/
def successResult (content : List Char) : CallToolResult :=
  { isError := some false, content := [content] }

/-- Observable side effects of a handler run; `connectAttempt` marks one
invocation of `connectToClickHouse`. -/
inductive CHEvent where
  | connectAttempt (config : ClickHouseConfig)

/-- The handler's environment: the configuration that
`getClickHouseConfigFromEnv` would assemble (none when `CLICKHOUSE_HOST`
is unset) and the behaviour of `connectToClickHouse` / `conn.Query` for
this invocation. -/
structure CHEnv where
  config : Option ClickHouseConfig
  connect : ClickHouseConfig → Except (List Char) (List Char → Except (List Char) Rows)

/-- The argument mapping passed to a handler. -/
def GoArgs : Type := List (List Char × GoValue)

/-- `args[key]` on the argument map. -/
def lookupArg (args : GoArgs) (key : List Char) : Option GoValue :=
  (args.find? (fun p => p.fst = key)).map (·.snd)

/-- Translation of `executeQuery` (tools/clickhouse.go) given the
connection's query behaviour: rewrite, submit, and materialize. -/
def executeQuery (connQuery : List Char → Except (List Char) Rows)
    (query : List Char) (limit : Int) : Except (List Char) (List Char) :=
  let query := rewriteQuery query limit
  match connQuery query with
  | Except.error e =>
    Except.error (("query execution failed: ").toList ++ e)
  | Except.ok rows => formatQueryResults rows limit

/-- Translation of `clickHouseQueryHandler` (tools/clickhouse_env.go),
instrumented with the list of connection attempts it performs. -/
def clickHouseQueryHandler (env : CHEnv) (args : GoArgs) :
    CallToolResult × List CHEvent :=
  match lookupArg args ("query").toList with
  | some (GoValue.vstr query) =>
    if goTrimSpace query = [] then
      (errorResult ("Query parameter is required and must be a non-empty string").toList, [])
    else if !isQuerySafe query then
      (errorResult ("Only SELECT, SHOW, and DESCRIBE queries are allowed for security reasons").toList, [])
    else
      match env.config with
      | none =>
        (errorResult ("ClickHouse configuration not found in environment variables. Please check your settings.").toList, [])
      | some config =>
        let limit := parseClickHouseLimit (lookupArg args ("limit").toList)
        match env.connect config with
        | Except.error e =>
          (errorResult (("Failed to connect to ClickHouse: ").toList ++ e ++
            ("\nPlease verify your connection settings.").toList),
           [CHEvent.connectAttempt config])
        | Except.ok connQuery =>
          match executeQuery connQuery query limit with
          | Except.error e =>
            (errorResult (("Query execution failed: ").toList ++ e),
             [CHEvent.connectAttempt config])
          | Except.ok results =>
            (successResult results, [CHEvent.connectAttempt config])
  | _ =>
    (errorResult ("Query parameter is required and must be a non-empty string").toList, [])

/-- The safety classifier exactly as the spec words it ("trim surrounding
whitespace, uppercase, and test whether the result starts with one of the
literal tokens SELECT, SHOW, DESCRIBE"); compared against the source's
`isQuerySafe`, which uppercases before trimming. -/
def specIsSafe (query : List Char) : Bool :=
  let t := goToUpper (goTrimSpace query)
  goStartsWith t ("SELECT").toList ||
  goStartsWith t ("SHOW").toList ||
  goStartsWith t ("DESCRIBE").toList

/-- The type tags with a dedicated case in `createValueSlice`; every
other tag falls through to the default string target. -/
def recognizedTags : List (List Char) :=
  [("UInt8").toList, ("UInt16").toList, ("UInt32").toList, ("UInt64").toList,
   ("Int8").toList, ("Int16").toList, ("Int32").toList, ("Int64").toList,
   ("Float32").toList, ("Float64").toList,
   ("String").toList, ("FixedString").toList,
   ("Date").toList, ("DateTime").toList, ("DateTime64").toList]

theorem char_toNat_ofNat_lt (n : Nat) (h : n < 55296) :
    (Char.ofNat n).toNat = n := by
  simp [Char.ofNat, Nat.isValidChar, h, Char.ofNatAux, Char.toNat,
    UInt32.toNat, UInt32.ofNatCore]

theorem goIsSpace_goToUpperChar (c : Char) :
    goIsSpace (goToUpperChar c) = goIsSpace c := by
  unfold goToUpperChar
  by_cases h : 97 ≤ c.toNat ∧ c.toNat ≤ 122
  · rw [if_pos h]
    have h2 : (Char.ofNat (c.toNat - 32)).toNat = c.toNat - 32 :=
      char_toNat_ofNat_lt _ (by omega)
    have hl : goIsSpace c = false := by
      simp only [goIsSpace, decide_eq_false_iff_not]
      omega
    have hr : goIsSpace (Char.ofNat (c.toNat - 32)) = false := by
      simp only [goIsSpace, decide_eq_false_iff_not, h2]
      omega
    rw [hl, hr]
  · rw [if_neg h]

theorem goTrimSpace_goToUpper (s : List Char) :
    goTrimSpace (goToUpper s) = goToUpper (goTrimSpace s) := by
  have hpf : (goIsSpace ∘ goToUpperChar) = goIsSpace :=
    funext goIsSpace_goToUpperChar
  simp [goTrimSpace, goToUpper, List.dropWhile_map, hpf, ← List.map_reverse]

/-- C2: `isQuerySafe` agrees with the spec's classifier (trim the
whitespace, uppercase, then test for a SELECT / SHOW / DESCRIBE prefix)
on every query string — the source uppercases before trimming, and the
two orders commute — and it classifies the two sample queries as the
claim states. It is a total Lean function, hence pure and non-raising. -/
theorem isQuerySafe_iff_spec :
    (∀ q : List Char, isQuerySafe q = specIsSafe q) ∧
    isQuerySafe (("  select 1").toList) = true ∧
    isQuerySafe (("DROP TABLE t").toList) = false := by
  refine ⟨fun q => ?_, by decide, by decide⟩
  simp [isQuerySafe, specIsSafe, goTrimSpace_goToUpper]

/-- C4: `parseClickHouseLimit` is a total function; an absent or
non-numeric argument yields the default 100; a numeric argument is
truncated toward zero and clamped into [1, 1000] — equivalently the
result is `min 1000 (max 1 trunc)`, so inputs below 1 (including
negatives) give 1 and inputs above 1000 give 1000; in particular 0 gives
1, -5 gives 1, 2000 gives 1000. -/
theorem parseClickHouseLimit_clamps :
    parseClickHouseLimit none = 100 ∧
    (∀ s, parseClickHouseLimit (some (GoValue.vstr s)) = 100) ∧
    (∀ b, parseClickHouseLimit (some (GoValue.vbool b)) = 100) ∧
    parseClickHouseLimit (some GoValue.vnull) = 100 ∧
    (∀ q : ℚ, parseClickHouseLimit (some (GoValue.vnum q)) =
      min 1000 (max 1 (goTruncToInt q))) ∧
    parseClickHouseLimit (some (GoValue.vnum 0)) = 1 ∧
    parseClickHouseLimit (some (GoValue.vnum (-5))) = 1 ∧
    parseClickHouseLimit (some (GoValue.vnum 2000)) = 1000 := by
  refine ⟨rfl, fun s => rfl, fun b => rfl, rfl, fun q => ?_, ?_, ?_, ?_⟩
  · simp only [parseClickHouseLimit, maxCHLimit]
    split_ifs <;> omega
  · decide
  · decide
  · decide

theorem goTruncToInt_intCast (n : Int) : goTruncToInt (n : ℚ) = n := by
  unfold goTruncToInt
  split <;> simp

theorem parseClickHouseLimit_mem_range (x : Option GoValue) :
    1 ≤ parseClickHouseLimit x ∧ parseClickHouseLimit x ≤ 1000 := by
  match x with
  | none => exact ⟨by decide, by decide⟩
  | some (GoValue.vstr s) =>
    constructor <;> norm_num [parseClickHouseLimit, defaultCHLimit]
  | some (GoValue.vbool b) =>
    constructor <;> norm_num [parseClickHouseLimit, defaultCHLimit]
  | some GoValue.vnull => exact ⟨by decide, by decide⟩
  | some (GoValue.vnum q) =>
    simp only [parseClickHouseLimit, maxCHLimit]
    split_ifs <;> omega

/-- C7: re-feeding the clamped output of `parseClickHouseLimit` as a
numeric argument reproduces it — truncation is the identity on an
integer value and the clamp is the identity on the range [1, 1000], in
which every output (the default 100 included) lies. -/
theorem parseClickHouseLimit_idempotent (x : Option GoValue) :
    parseClickHouseLimit
      (some (GoValue.vnum ((parseClickHouseLimit x : Int) : ℚ))) =
    parseClickHouseLimit x := by
  obtain ⟨h1, h2⟩ := parseClickHouseLimit_mem_range x
  generalize hm : parseClickHouseLimit x = m at h1 h2 ⊢
  simp only [parseClickHouseLimit, goTruncToInt_intCast, maxCHLimit]
  split_ifs <;> omega

/-- C3: `executeQuery`'s rewrite appends exactly one ` LIMIT n` clause
exactly when the trimmed-uppercased query starts with SELECT and the
uppercased query does not contain the substring LIMIT (`wantsLimitClause`,
a case-insensitive substring test, so a LIMIT inside a string literal or
subquery also suppresses the rewrite); in every other case — non-SELECT
queries such as SHOW or DESCRIBE, or a SELECT already containing LIMIT —
the query is submitted unchanged. -/
theorem rewriteQuery_appends_iff (q : List Char) (n : Int) :
    rewriteQuery q n =
      (if wantsLimitClause q then q ++ limitClause n else q) ∧
    (rewriteQuery q n = q ++ limitClause n ↔ wantsLimitClause q = true) ∧
    (rewriteQuery q n = q ↔ wantsLimitClause q = false) := by
  have hlen : limitClause n ≠ [] := by simp [limitClause]
  cases hc : wantsLimitClause q with
  | true =>
    have hr : rewriteQuery q n = q ++ limitClause n := by
      simp [rewriteQuery, hc]
    refine ⟨by simp [hr, hc], by simp [hr], ?_⟩
    simp only [hr, iff_false, Bool.true_eq_false, ne_eq]
    intro h
    have h2 := congrArg List.length h
    simp only [List.length_append] at h2
    exact hlen (List.eq_nil_of_length_eq_zero (by omega))
  | false =>
    have hr : rewriteQuery q n = q := by
      simp [rewriteQuery, hc]
    refine ⟨by simp [hr, hc], ?_, by simp [hr]⟩
    simp only [hr, iff_false, Bool.false_eq_true]
    intro h
    have h2 := congrArg List.length h
    simp only [List.length_append] at h2
    exact hlen (List.eq_nil_of_length_eq_zero (by omega))

/-- C1: on a cursor with columns `id : UInt32` and `name : String` and
rows (1,"a"), (2,"b"), (3,"c"), rendering with limit 2 yields exactly
"Query Results:", a blank line, the header "id | name", a 9-dash
separator, the data lines "1 | a" and "2 | b", a blank line, and
"Total rows: 2 (limited to 2)", each line terminated by a newline. -/
theorem formatQueryResults_end_to_end :
    formatQueryResults
      { columnTypes := [{ name := ("id").toList, dbTypeName := ("UInt32").toList },
                        { name := ("name").toList, dbTypeName := ("String").toList }],
        data := [[WireValue.u32 1, WireValue.str ("a").toList],
                 [WireValue.u32 2, WireValue.str ("b").toList],
                 [WireValue.u32 3, WireValue.str ("c").toList]],
        iterErr := none } 2 =
    Except.ok
      ("Query Results:\n\nid | name\n---------\n1 | a\n2 | b\n\nTotal rows: 2 (limited to 2)\n").toList := by
  rfl

theorem emitRows_count (cols : List GoColumnType) (data : List (List WireValue))
    (rowCount : Nat) (limit : Int) (lines : List (List Char)) (c : Nat) (e : Bool)
    (h : emitRows cols data rowCount limit = Except.ok (lines, c, e)) :
    lines.length = min data.length (limit.toNat - rowCount) ∧
    c = rowCount + lines.length := by
  induction data generalizing rowCount lines c e with
  | nil =>
    simp only [emitRows, Except.ok.injEq, Prod.mk.injEq] at h
    obtain ⟨h1, h2, h3⟩ := h
    subst h1 h2
    simp
  | cons row rest ih =>
    simp only [emitRows] at h
    split at h
    · next hge =>
      simp only [Except.ok.injEq, Prod.mk.injEq] at h
      obtain ⟨h1, h2, h3⟩ := h
      subst h1 h2
      refine ⟨?_, by simp⟩
      simp only [List.length_nil, List.length_cons]
      omega
    · next hlt =>
      split at h
      · exact absurd h (by simp)
      · next scanned hscan =>
        split at h
        · exact absurd h (by simp)
        · next lines' c' e' hrec =>
          simp only [Except.ok.injEq, Prod.mk.injEq] at h
          obtain ⟨h1, h2, h3⟩ := h
          subst h1 h2 h3
          obtain ⟨ih1, ih2⟩ := ih _ _ _ _ hrec
          simp only [List.length_cons]
          omega

/-- C5: for every cursor and every supplied limit, the row loop of
`formatQueryResults` emits `min (cursor length) limit` data lines — in
particular never more than the supplied limit, and iteration stops once
`limit` rows have been consumed even if more rows remain.  (`emitRows`
is the loop of `formatQueryResults`; its first component is exactly the
list of data lines written between the separator rule and the summary.) -/
theorem formatQueryResults_data_lines_le_limit (rows : Rows) (limit : Int)
    (lines : List (List Char)) (c : Nat) (e : Bool)
    (h : emitRows rows.columnTypes rows.data 0 limit = Except.ok (lines, c, e)) :
    lines.length = min rows.data.length limit.toNat ∧
    (lines.length : Int) ≤ max limit 0 := by
  obtain ⟨h1, h2⟩ := emitRows_count rows.columnTypes rows.data 0 limit lines c e h
  constructor
  · omega
  · omega

/-- Witness for C5 at a concrete three-row cursor rendered with limit 2:
exactly two data lines are emitted. -/
theorem formatQueryResults_data_lines_le_limit_witness :
    ([("1").toList, ("2").toList] : List (List Char)).length =
      min (Rows.data
        { columnTypes := [{ name := ("id").toList, dbTypeName := ("UInt32").toList }],
          data := [[WireValue.u32 1], [WireValue.u32 2], [WireValue.u32 3]],
          iterErr := none }).length (2 : Int).toNat ∧
    ((([("1").toList, ("2").toList] : List (List Char)).length : Int) ≤ max 2 0) :=
  formatQueryResults_data_lines_le_limit
    { columnTypes := [{ name := ("id").toList, dbTypeName := ("UInt32").toList }],
      data := [[WireValue.u32 1], [WireValue.u32 2], [WireValue.u32 3]],
      iterErr := none } 2
    [("1").toList, ("2").toList] 2 false (by rfl)

/-- C6 counterexample: a cursor whose single column (declared
`Nullable(String)`) delivers a null cell does not render a `NULL` field —
`createValueSlice` allocates a plain string target (never a nil entry,
and never a null-capable pointer-to-pointer), so the row scan fails and
`formatQueryResults` returns an error instead of a table. -/
theorem formatQueryResults_null_scan_fails :
    formatQueryResults
      { columnTypes := [{ name := ("v").toList,
                          dbTypeName := ("Nullable(String)").toList }],
        data := [[WireValue.null]],
        iterErr := none } 100 =
    Except.error
      ("failed to scan row: converting NULL to destination type is unsupported").toList := by
  rfl

theorem createValueTarget_isSome (colType : GoColumnType) :
    (createValueTarget colType).isSome = true := by
  simp only [createValueTarget, apply_ite Option.isSome, Option.isSome_some,
    ite_self]

/-- C6 amended: `convertValuesToStrings` does render a nil values-slice
entry as the literal `NULL` regardless of any declared type, but the
decode pipeline never produces such an entry — every target allocated by
`createValueSlice` is non-nil — and a null cell instead makes the row
scan fail (shown here on a `Nullable(UInt32)` column), so the NULL
rendering is unreachable through `formatQueryResults`. -/
theorem convertValuesToStrings_nil_entry :
    (∀ before after : List GoIface,
      convertValuesToStrings (before ++ none :: after) =
        convertValuesToStrings before ++
          ("NULL").toList :: convertValuesToStrings after) ∧
    (∀ cols, (createValueSlice cols).all Option.isSome = true) ∧
    (formatQueryResults
      { columnTypes := [{ name := ("v").toList,
                          dbTypeName := ("Nullable(UInt32)").toList }],
        data := [[WireValue.u32 7, WireValue.null]],
        iterErr := none } 100).isOk = false := by
  refine ⟨fun before after => ?_, fun cols => ?_, by rfl⟩
  · simp only [convertValuesToStrings, List.map_append, List.map_cons]
    rfl
  · simp only [createValueSlice, List.all_eq_true]
    intro target htarget
    obtain ⟨colType, _, rfl⟩ := List.mem_map.mp htarget
    exact createValueTarget_isSome colType

theorem scanCell_null_isOk_false (d : GoIface) :
    (scanCell d WireValue.null).isOk = false := by
  match d with
  | none => rfl
  | some (GoVal.pU8 n) => rfl
  | some (GoVal.pU16 n) => rfl
  | some (GoVal.pU32 n) => rfl
  | some (GoVal.pU64 n) => rfl
  | some (GoVal.pI8 n) => rfl
  | some (GoVal.pI16 n) => rfl
  | some (GoVal.pI32 n) => rfl
  | some (GoVal.pI64 n) => rfl
  | some (GoVal.pF32 x) => rfl
  | some (GoVal.pF64 x) => rfl
  | some (GoVal.pStr s) => rfl
  | some (GoVal.pTime t) => rfl

theorem scanRow_all_isSome (dests : List GoIface) (row : List WireValue)
    (out : List GoIface) (h : scanRow dests row = Except.ok out) :
    out.all Option.isSome = true := by
  induction dests generalizing row out with
  | nil =>
    cases row with
    | nil =>
      simp only [scanRow, Except.ok.injEq] at h
      subst h
      rfl
    | cons w ws => exact absurd h (by simp [scanRow])
  | cons d ds ih =>
    cases row with
    | nil => exact absurd h (by simp [scanRow])
    | cons w ws =>
      simp only [scanRow] at h
      split at h
      · exact absurd h (by simp)
      · next v heq =>
        split at h
        · exact absurd h (by simp)
        · next rest hrec =>
          simp only [Except.ok.injEq] at h
          subst h
          simp only [List.all_cons, Option.isSome_some, Bool.true_and]
          exact ih ws rest hrec

theorem scanRow_null_isOk_false (dests : List GoIface) (row : List WireValue)
    (hmem : WireValue.null ∈ row) : (scanRow dests row).isOk = false := by
  induction row generalizing dests with
  | nil => simp at hmem
  | cons w ws ih =>
    match dests with
    | [] => rfl
    | d :: ds =>
      rcases heq : scanCell d w with e | v
      · simp [scanRow, heq, Except.isOk, Except.toBool]
      · rcases List.mem_cons.mp hmem with hw | hws
        · have hnull := scanCell_null_isOk_false d
          rw [hw, heq] at hnull
          simp [Except.isOk, Except.toBool] at hnull
        · have hrec := ih ds hws
          rcases hrow : scanRow ds ws with e2 | rest
          · simp [scanRow, heq, hrow, Except.isOk, Except.toBool]
          · rw [hrow] at hrec
            simp [Except.isOk, Except.toBool] at hrec

/-- C10: every entry of the slice built by `createValueSlice` is a
(freshly allocated) non-nil typed pointer — unrecognized tags, the
`Nullable(...)` wrappers included, fall through to a string target — and
`rows.Scan` keeps every entry non-nil, so on any slice the pipeline
produces, the nil check of `convertValuesToStrings` never fires; a null
cell can surface only as a row-scan failure, never through the
nil-to-NULL rendering branch. -/
theorem createValueSlice_nonnil_invariant :
    (∀ cols, (createValueSlice cols).all Option.isSome = true) ∧
    (∀ col : GoColumnType, col.dbTypeName ∉ recognizedTags →
      createValueTarget col = some (GoVal.pStr [])) ∧
    (∀ dests row out, scanRow dests row = Except.ok out →
      out.all Option.isSome = true) ∧
    (∀ dests row, WireValue.null ∈ row → (scanRow dests row).isOk = false) := by
  refine ⟨fun cols => ?_, fun col h => ?_, scanRow_all_isSome, scanRow_null_isOk_false⟩
  · simp only [createValueSlice, List.all_eq_true]
    intro target htarget
    obtain ⟨colType, _, rfl⟩ := List.mem_map.mp htarget
    exact createValueTarget_isSome colType
  · simp only [recognizedTags, List.mem_cons, List.not_mem_nil, or_false] at h
    push_neg at h
    obtain ⟨h1, h2, h3, h4, h5, h6, h7, h8, h9, h10, h11, h12, h13, h14, h15⟩ := h
    simp only [createValueTarget, if_neg h1, if_neg h2, if_neg h3, if_neg h4,
      if_neg h5, if_neg h6, if_neg h7, if_neg h8, if_neg h9, if_neg h10,
      if_neg (not_or.mpr ⟨h11, h12⟩),
      if_neg (not_or.mpr ⟨h13, not_or.mpr ⟨h14, h15⟩⟩)]

/-- Witness for C10: a `Nullable(Int64)` column gets the default string
target; a successful scan leaves every entry non-nil; scanning a null
cell fails. -/
theorem createValueSlice_nonnil_invariant_witness :
    createValueTarget
      { name := ("v").toList, dbTypeName := ("Nullable(Int64)").toList } =
      some (GoVal.pStr []) ∧
    (([some (GoVal.pU8 5)] : List GoIface).all Option.isSome = true) ∧
    (scanRow [some (GoVal.pStr [])] [WireValue.null]).isOk = false :=
  ⟨createValueSlice_nonnil_invariant.2.1 _ (by decide),
   createValueSlice_nonnil_invariant.2.2.1
     [some (GoVal.pU8 0)] [WireValue.u8 5] _ rfl,
   createValueSlice_nonnil_invariant.2.2.2
     [some (GoVal.pStr [])] [WireValue.null] (by simp)⟩

/-- C9: whenever the query argument fails the safety classifier, the
query handler returns an error result and performs no connection
attempt — `connectToClickHouse` is never invoked on that path (the
handler's event trace is empty). -/
theorem clickHouseQueryHandler_unsafe_no_connect (env : CHEnv) (args : GoArgs)
    (query : List Char)
    (hq : lookupArg args (("query").toList) = some (GoValue.vstr query))
    (hrejected : isQuerySafe query = false) :
    (clickHouseQueryHandler env args).1.isError = some true ∧
    (clickHouseQueryHandler env args).2 = [] := by
  unfold clickHouseQueryHandler
  rw [hq]
  by_cases hb : goTrimSpace query = []
  · simp [hb, errorResult]
  · simp [hb, hrejected, errorResult]

/-- Witness for C9: the unsafe query "DELETE FROM t" is rejected with an
error result and an empty connection-attempt trace. -/
theorem clickHouseQueryHandler_unsafe_no_connect_witness :
    (clickHouseQueryHandler
      { config := none, connect := fun _ => Except.error [] }
      [((("query").toList), GoValue.vstr ("DELETE FROM t").toList)]).1.isError =
      some true ∧
    (clickHouseQueryHandler
      { config := none, connect := fun _ => Except.error [] }
      [((("query").toList), GoValue.vstr ("DELETE FROM t").toList)]).2 = [] :=
  clickHouseQueryHandler_unsafe_no_connect
    { config := none, connect := fun _ => Except.error [] }
    [((("query").toList), GoValue.vstr ("DELETE FROM t").toList)]
    (("DELETE FROM t").toList) (by rfl) (by decide)
